import Mathlib

/-!
Verification of the foamgraph event-dispatch and transform-cache core.

This file gives a shallow embedding, in Lean 4, of the parts of the
repository that the checked properties are about:

* `LRUCache` from `pyqtgraph_be/graphicsItems/GraphicsItem.py`;
* the geometry queries `deviceTransform` / `pixelVectors` of
  `GraphicsItem` (same file), with their two-level caching;
* the custom mouse-event machinery of
  `pyqtgraph_be/GraphicsScene/GraphicsScene.py`: `sendHoverEvents`,
  `sendDragEvent`, `sendClickEvent`, `itemsNearEvent`,
  `mouseMoveEvent`, `mouseReleaseEvent`, `addParentContextMenus`.

Python conventions are mapped as follows: dictionaries become
insertion-ordered association lists; exceptions become `Except`;
`None` becomes `Option.none`; mutation becomes explicit state passing.
Real-number quantities (coordinates, times, matrix coefficients) are
carried as integers: none of the embedded code divides, and every
comparison it makes is order-theoretic, so the embedding is exact on
these inputs and every definition evaluates inside the kernel.
-/

namespace Foamgraph

/-- Decidable equality for `Except`, used to settle closed evaluations
of the fallible embedded functions by `decide`. -/
instance {ε α : Type} [DecidableEq ε] [DecidableEq α] : DecidableEq (Except ε α) := by
  intro x y
  cases x <;> cases y
  case error.error a b | ok.ok a b =>
    exact if h : a = b then .isTrue (by rw [h]) else .isFalse (by simp [h])
  all_goals exact .isFalse (by simp)

/-! ## LRUCache (GraphicsItem.py lines 12-93)

The Python class keeps `_dict : key -> [key, value, accessTime]` (a
CPython dict, hence insertion-ordered) and a monotone counter
`_nextTime`.  We embed the dict as an insertion-ordered list of
`(key, value, time)` entries with pairwise distinct keys. -/

structure LRUCache (K V : Type) where
  maxSize : Nat
  resizeTo : Nat
  dict : List (K × V × Nat)
  counter : Nat
  deriving Repr, DecidableEq

/-- `LRUCache.__init__` (the `assert resizeTo < maxSize` is a
precondition carried by theorems that need it). -/
def LRUCache.new (K V : Type) (maxSize resizeTo : Nat) : LRUCache K V :=
  { maxSize := maxSize, resizeTo := resizeTo, dict := [], counter := 0 }

/-- In-place update of the entry holding key `k` (Python mutates the
`[key, value, time]` list inside the dict, so the entry keeps its
position). -/
def lruUpdateEntry {K V : Type} [DecidableEq K] (k : K) (f : V × Nat → V × Nat) :
    List (K × V × Nat) → List (K × V × Nat)
  | [] => []
  | e :: es => if e.1 = k then (e.1, f e.2) :: es else e :: lruUpdateEntry k f es

/-- Stable insertion (ascending by access time) used to model
`sorted(self._dict.values(), key=operator.itemgetter(2))`. -/
def lruInsertByTime {K V : Type} (e : K × V × Nat) :
    List (K × V × Nat) → List (K × V × Nat)
  | [] => [e]
  | f :: fs => if e.2.2 ≤ f.2.2 then e :: f :: fs else f :: lruInsertByTime e fs

/-- `sorted(values, key=itemgetter(2))`: stable sort by access time. -/
def lruSortByTime {K V : Type} : List (K × V × Nat) → List (K × V × Nat)
  | [] => []
  | e :: es => lruInsertByTime e (lruSortByTime es)

/-- `LRUCache._resizeTo` (GraphicsItem.py lines 78-81):

    ordered = sorted(self._dict.values(), key=operator.itemgetter(2))[:self.resizeTo]
    for i in ordered:
        del self._dict[i[0]]

Note the slice `[:self.resizeTo]` takes the `resizeTo` entries with the
*smallest* access times (the least recently touched) and deletes those
keys, leaving the most recently touched `len - resizeTo` entries. -/
def LRUCache.resizePass {K V : Type} [DecidableEq K] (c : LRUCache K V) : LRUCache K V :=
  let ordered := (lruSortByTime c.dict).take c.resizeTo
  { c with dict := c.dict.filter (fun e => !(ordered.any (fun o => decide (o.1 = e.1)))) }

/-- `LRUCache.__setitem__` (GraphicsItem.py lines 48-58). -/
def LRUCache.setItem {K V : Type} [DecidableEq K] (c : LRUCache K V) (k : K) (v : V) :
    LRUCache K V :=
  if c.dict.any (fun e => decide (e.1 = k)) then
    { c with dict := lruUpdateEntry k (fun _ => (v, c.counter)) c.dict,
             counter := c.counter + 1 }
  else
    let c1 := if c.dict.length + 1 > c.maxSize then c.resizePass else c
    { c1 with dict := c1.dict ++ [(k, v, c1.counter)], counter := c1.counter + 1 }

/-- `LRUCache.__getitem__` (lines 40-43): a hit refreshes the entry's
access time; a missing key is a `KeyError`, rendered as `none`. -/
def LRUCache.getItem {K V : Type} [DecidableEq K] (c : LRUCache K V) (k : K) :
    Option V × LRUCache K V :=
  match c.dict.find? (fun e => decide (e.1 = k)) with
  | none => (none, c)
  | some e =>
      (some e.2.1,
       { c with dict := lruUpdateEntry k (fun vt => (vt.1, c.counter)) c.dict,
                counter := c.counter + 1 })

/-- `LRUCache.get(key, default=None)` (lines 63-67). -/
def LRUCache.getDefault {K V : Type} [DecidableEq K] (c : LRUCache K V) (k : K) :
    Option V × LRUCache K V :=
  c.getItem k

/-- Insert a list of (key, value) pairs left to right via `__setitem__`. -/
def lruInsertSeq {K V : Type} [DecidableEq K] (c : LRUCache K V) :
    List (K × V) → LRUCache K V
  | [] => c
  | kv :: rest => lruInsertSeq (c.setItem kv.1 kv.2) rest

/-- Keys currently stored, in dict (insertion) order: `LRUCache.keys`. -/
def LRUCache.keyList {K V : Type} (c : LRUCache K V) : List K :=
  c.dict.map (fun e => e.1)

/-- C1. The claim says inserting `maxSize+1` distinct keys leaves exactly
`resizeTo` entries.  The code instead deletes the `resizeTo` least
recently touched entries, leaving `maxSize - resizeTo` survivors plus
the newly inserted key: with `maxSize = 4`, `resizeTo = 2`, inserting
keys 0,1,2,3,4 leaves the 3 entries 2,3,4 — not 2 entries.  The recency
direction itself is as claimed: reading key 0 before the overflowing
insert refreshes it, and it then survives ahead of the untouched keys
1 and 2. -/
theorem claim1_lru_eviction_leaves_maxSize_sub_resizeTo :
    -- plain overflow: five distinct inserts into LRUCache(4, 2)
    ((lruInsertSeq (LRUCache.new Nat Nat 4 2)
        [(0,10),(1,11),(2,12),(3,13),(4,14)]).keyList = [2, 3, 4] ∧
     (lruInsertSeq (LRUCache.new Nat Nat 4 2)
        [(0,10),(1,11),(2,12),(3,13),(4,14)]).dict.length = 3) ∧
    -- a read of key 0 refreshes its recency, so it survives the pass
    -- ahead of the untouched keys 1 and 2
    ((lruInsertSeq
        ((lruInsertSeq (LRUCache.new Nat Nat 4 2)
            [(0,10),(1,11),(2,12),(3,13)]).getItem 0).2
        [(4,14)]).keyList = [0, 3, 4]) := by
  decide

/-! ## Geometry: deviceTransform and pixelVectors
(GraphicsItem.py lines 192-341) -/

/-- A 2D point (QPointF) with integer coordinates. -/
structure Pt where
  x : ℤ
  y : ℤ
  deriving Repr, DecidableEq

/-- An affine QTransform, matrix [[m11 m12 0], [m21 m22 0], [m31 m32 1]]
under Qt's row-vector convention ((x, y, 1) · M). -/
structure Transform where
  m11 : ℤ
  m12 : ℤ
  m21 : ℤ
  m22 : ℤ
  m31 : ℤ
  m32 : ℤ
  deriving Repr, DecidableEq

/-- `QTransform.determinant()` of an affine transform. -/
def Transform.det (t : Transform) : ℤ := t.m11 * t.m22 - t.m12 * t.m21

/-- Qt's `t1 * t2`: apply `t1`, then `t2`. -/
def Transform.comp (a b : Transform) : Transform :=
  { m11 := a.m11 * b.m11 + a.m12 * b.m21
    m12 := a.m11 * b.m12 + a.m12 * b.m22
    m21 := a.m21 * b.m11 + a.m22 * b.m21
    m22 := a.m21 * b.m12 + a.m22 * b.m22
    m31 := a.m31 * b.m11 + a.m32 * b.m21 + b.m31
    m32 := a.m31 * b.m12 + a.m32 * b.m22 + b.m32 }

/-- `dt.setMatrix(dt.m11(), dt.m12(), 0, dt.m21(), dt.m22(), 0, 0, 0, 1)`
(GraphicsItem.py line 269): drop the translation row. -/
def Transform.stripTranslation (t : Transform) : Transform :=
  { t with m31 := 0, m32 := 0 }

/-- Image of the vector `p` under `t` ignoring translation: with the
translation row already zero, `t.map(QLineF(0, 0, p))` is the line from
the origin to this point. -/
def Transform.mapVector (t : Transform) (p : Pt) : Pt :=
  ⟨t.m11 * p.x + t.m21 * p.y, t.m12 * p.x + t.m22 * p.y⟩

/-- The data of a `GraphicsItem` consumed by `deviceTransform`:
whether the item is currently exporting with a painter
(`self._exportOpts is not False and 'painter' in self._exportOpts`),
the export `resolutionScale`, the item's scene transform, and the
hosting view's `viewportTransform()` (`none` when `getViewWidget()`
returns None). -/
structure GeomItem where
  exportPainter : Bool
  exportScale : ℤ
  sceneTr : Transform
  view : Option Transform
  deriving Repr, DecidableEq

/-- `GraphicsItem.deviceTransform` (GraphicsItem.py lines 192-211). -/
def GeomItem.deviceTransform (it : GeomItem) : Option Transform :=
  if it.exportPainter then
    some (it.sceneTr.comp ⟨it.exportScale, 0, 0, it.exportScale, 1, 1⟩)
  else
    match it.view with
    | none => none
    | some vt =>
        let dt := it.sceneTr.comp vt
        if dt.det = 0 then none else some dt

/-- The pixelVectors cache key (GraphicsItem.py line 276):
`(dt.m11(), dt.m21(), dt.m12(), dt.m22(), direction.x(), direction.y())`. -/
abbrev PVKey := ℤ × ℤ × ℤ × ℤ × ℤ × ℤ

/-- A pixel-vector pair (parallel, orthogonal). -/
abbrev PV := Pt × Pt

/-- What `_pixelVectorCache[0]` can hold: the source writes either the
key tuple (global-cache hit, line 285) or the translation-stripped
QTransform object `dt` (compute path, line 339).  In Python a `==`
between the 6-tuple key and a QTransform is always False. -/
inductive PVLocalKey where
  | key (k : PVKey)
  | tr (t : Transform)
  deriving Repr, DecidableEq

/-- `key == self._pixelVectorCache[0]` (line 279): true only when the
slot holds an equal key tuple; a stored QTransform never compares equal
to a tuple. -/
def pvLocalKeyMatches (k : PVKey) : PVLocalKey → Bool
  | .key k2 => decide (k = k2)
  | .tr _ => false

/-- Instrumentation tag recording which path of `pixelVectors` produced
a result; it does not alter the computation. -/
inductive PVSource where
  | degenerate | localHit | globalHit | computed
  deriving Repr, DecidableEq

/-- The caching state read and written by `pixelVectors`: the per-item
2-slot cache `_pixelVectorCache` (initially `[None, None]`; the source
only ever writes the two slots together) and the shared
`_pixelVectorGlobalCache`. -/
structure PVState where
  localCache : Option (PVLocalKey × PV)
  globalCache : LRUCache PVKey PV
  deriving Repr, DecidableEq

/-- Fresh caches: `_pixelVectorCache = [None, None]` and
`_pixelVectorGlobalCache = LRUCache(100, 70)`. -/
def freshPVState : PVState := ⟨none, LRUCache.new PVKey PV 100 70⟩

/-- Body of `pixelVectors` from the cache-key computation on
(GraphicsItem.py lines 276-341), for an already translation-stripped
transform `dt` and an already defaulted, known nonzero direction `d`.
The numeric tail of the compute path (unit vector of the mapped
direction, its normal vector, mapping both back through the inverted
transform — floating-point square roots) is abstracted as the parameter
`computePV`, a function of the cache key: the key determines `dt` and
`d`, which are that computation's only inputs. -/
def pixelVectorsCore (computePV : PVKey → PV) (dt : Transform) (st : PVState) (d : Pt) :
    (Option Pt × Option Pt) × PVState × PVSource :=
  let key : PVKey := (dt.m11, dt.m21, dt.m12, dt.m22, d.x, d.y)
  let localHit :=
    match st.localCache with
    | some (lk, pv) => if pvLocalKeyMatches key lk then some pv else none
    | none => none
  match localHit with
  | some pv => ((some pv.1, some pv.2), st, .localHit)
  | none =>
    match st.globalCache.getDefault key with
    | (some pv, gc) =>
        ((some pv.1, some pv.2),
         { localCache := some (.key key, pv), globalCache := gc }, .globalHit)
    | (none, gc) =>
        let viewDir := dt.mapVector d
        if viewDir.x = 0 ∧ viewDir.y = 0 then
          ((none, none), { st with globalCache := gc }, .degenerate)
        else
          let pv := computePV key
          ((some pv.1, some pv.2),
           { localCache := some (.tr dt, pv), globalCache := gc.setItem key pv },
           .computed)

/-- `GraphicsItem.pixelVectors` (GraphicsItem.py lines 252-341). -/
def pixelVectors (computePV : PVKey → PV) (it : GeomItem) (st : PVState)
    (direction : Option Pt) :
    Except String ((Option Pt × Option Pt) × PVState × PVSource) :=
  match it.deviceTransform with
  | none => .ok ((none, none), st, .degenerate)
  | some dt0 =>
    let dt := dt0.stripTranslation
    match direction with
    | none => .ok (pixelVectorsCore computePV dt st ⟨1, 0⟩)
    | some d =>
        -- direction.manhattanLength() == 0, i.e. |x| + |y| = 0
        if d.x.natAbs + d.y.natAbs = 0 then
          .error "Cannot compute pixel length for 0-length vector."
        else
          .ok (pixelVectorsCore computePV dt st d)

/-- The identity transform. -/
def idTr : Transform := ⟨1, 0, 0, 1, 0, 0⟩

/-- A displayed, non-exporting item with identity scene and viewport
transforms. -/
def pvItem : GeomItem :=
  { exportPainter := false, exportScale := 1, sceneTr := idTr, view := some idTr }

/-- A concrete stand-in for the numeric pixel-vector computation. -/
def pv0 : PVKey → PV := fun _ => (⟨1, 0⟩, ⟨0, 1⟩)

/-- Log of three successive `pixelVectors` calls with identical
arguments, threading the cache state: the path tags, the results, and
the per-item cache contents after the first call. -/
structure PVChainLog where
  src1 : PVSource
  src2 : PVSource
  src3 : PVSource
  res1 : Option Pt × Option Pt
  res2 : Option Pt × Option Pt
  res3 : Option Pt × Option Pt
  localAfterFirst : Option (PVLocalKey × PV)
  deriving Repr, DecidableEq

/-- Three successive `pixelVectors` calls on `pvItem` with the same
direction, starting from fresh caches. -/
def pvChain : Except String PVChainLog := do
  let (r1, st1, s1) ← pixelVectors pv0 pvItem freshPVState (some ⟨1, 0⟩)
  let (r2, st2, s2) ← pixelVectors pv0 pvItem st1 (some ⟨1, 0⟩)
  let (r3, _, s3) ← pixelVectors pv0 pvItem st2 (some ⟨1, 0⟩)
  pure { src1 := s1, src2 := s2, src3 := s3,
         res1 := r1, res2 := r2, res3 := r3,
         localAfterFirst := st1.localCache }

/-- C7. The claim says a call that computes stores the value in both
caches "so that a subsequent call with the same translation-stripped
transform coefficients and direction returns an equal vector pair from
a cache (the per-item cache being hit first)".  The compute path
however stores the stripped QTransform `dt`, not the 6-tuple key, in
the per-item cache's key slot (line 339, compare line 285), so the
immediately following identical call misses the per-item cache and is
served by the shared cache; only the third call hits the per-item
cache.  All three calls do return the equal vector pair. -/
theorem claim7_per_item_cache_key_slot_holds_transform_not_key :
    pvChain = .ok
      { src1 := .computed, src2 := .globalHit, src3 := .localHit,
        res1 := (some ⟨1, 0⟩, some ⟨0, 1⟩),
        res2 := (some ⟨1, 0⟩, some ⟨0, 1⟩),
        res3 := (some ⟨1, 0⟩, some ⟨0, 1⟩),
        localAfterFirst := some (.tr idTr, (⟨1, 0⟩, ⟨0, 1⟩)) } := by
  decide

/-- C6. Undefined geometry is a value, not an exception:
(i) without a hosting view (and not exporting) `deviceTransform` is
`none`; (ii) likewise when the composed transform has determinant
exactly 0; (iii) whenever `deviceTransform` is `none`, `pixelVectors`
returns the pair `(none, none)` instead of raising — whatever the
direction argument; (iv) the same when the mapped direction has zero
length (fresh caches); (v) the only exception these queries raise is
`pixelVectors` on an explicitly given zero-length direction vector
(which requires the device transform to exist, since the transform is
checked first). -/
theorem claim6_undefined_geometry_is_a_value (f : PVKey → PV) :
    (∀ it : GeomItem, it.exportPainter = false → it.view = none →
        it.deviceTransform = none) ∧
    (∀ (it : GeomItem) (vt : Transform), it.exportPainter = false →
        it.view = some vt → (it.sceneTr.comp vt).det = 0 →
        it.deviceTransform = none) ∧
    (∀ (it : GeomItem) (st : PVState) (dir : Option Pt),
        it.deviceTransform = none →
        pixelVectors f it st dir = .ok ((none, none), st, .degenerate)) ∧
    (∀ (it : GeomItem) (dt0 : Transform) (d : Pt),
        it.deviceTransform = some dt0 → ¬(d.x = 0 ∧ d.y = 0) →
        dt0.stripTranslation.mapVector d = ⟨0, 0⟩ →
        pixelVectors f it freshPVState (some d) =
          .ok ((none, none), freshPVState, .degenerate)) ∧
    (∀ (it : GeomItem) (st : PVState) (dir : Option Pt),
        (∃ msg, pixelVectors f it st dir = .error msg) ↔
          (it.deviceTransform.isSome = true ∧
           ∃ d, dir = some d ∧ d.x = 0 ∧ d.y = 0)) := by
  refine ⟨?_, ?_, ?_, ?_, ?_⟩
  · intro it h1 h2
    simp [GeomItem.deviceTransform, h1, h2]
  · intro it vt h1 h2 h3
    simp [GeomItem.deviceTransform, h1, h2, h3]
  · intro it st dir h
    simp [pixelVectors, h]
  · intro it dt0 d h hd hmap
    have hx : ¬(d.x.natAbs + d.y.natAbs = 0) := by
      simpa [Int.natAbs_eq_zero, Nat.add_eq_zero] using hd
    simp only [pixelVectors, h, hx, if_false]
    simp [pixelVectorsCore, freshPVState, LRUCache.getDefault, LRUCache.getItem,
          LRUCache.new, hmap]
  · intro it st dir
    constructor
    · rintro ⟨msg, hmsg⟩
      cases hdt : it.deviceTransform with
      | none => simp [pixelVectors, hdt] at hmsg
      | some dt0 =>
        cases dir with
        | none => simp [pixelVectors, hdt] at hmsg
        | some d =>
          refine ⟨by simp [hdt], d, rfl, ?_⟩
          by_cases hz : d.x.natAbs + d.y.natAbs = 0
          · simpa [Int.natAbs_eq_zero, Nat.add_eq_zero] using hz
          · simp [pixelVectors, hdt, hz] at hmsg
    · rintro ⟨hdt, d, rfl, hx, hy⟩
      cases h : it.deviceTransform with
      | none => simp [h] at hdt
      | some dt0 =>
        exact ⟨"Cannot compute pixel length for 0-length vector.",
               by simp [pixelVectors, h, hx, hy]⟩

/-- Witness for C6: a non-exporting item with no hosting view has no
device transform, and its `pixelVectors` with the default direction is
the value `(none, none)` rather than an exception. -/
theorem claim6_witness :
    (GeomItem.mk false 1 idTr none).deviceTransform = none ∧
    pixelVectors pv0 (GeomItem.mk false 1 idTr none) freshPVState none =
      .ok ((none, none), freshPVState, .degenerate) :=
  ⟨(claim6_undefined_geometry_is_a_value pv0).1 _ rfl rfl,
   (claim6_undefined_geometry_is_a_value pv0).2.2.1 _ freshPVState none
     ((claim6_undefined_geometry_is_a_value pv0).1 _ rfl rfl)⟩

/-! ## GraphicsScene mouse-event machinery (GraphicsScene.py)

Items are embedded as plain records.  Python attribute tests
(`hasattr(item, 'hoverEvent')` etc.) become `Option`-valued handler
fields; a handler's behaviour is reduced to the observables the scene
reads: whether it leaves the event's accepted flag set and whether it
raises.  Hit shapes are axis-aligned rectangles in scene coordinates
(standing for `shape.contains(item.mapFromScene(point))`). -/

inductive Button where
  | left | middle | right
  deriving Repr, DecidableEq

/-- Raw Qt scene-event types observed by the embedded methods. -/
inductive EvType where
  | press | move | release | leave
  deriving Repr, DecidableEq

/-- A raw scene mouse event: `button()` is the button that changed,
`buttons()` the buttons held after the transition, `grabber` models
`self.mouseGrabberItem() is not None`. -/
structure SEvent where
  typ : EvType
  button : Button
  buttons : List Button
  scenePos : Pt
  time : ℤ
  grabber : Bool
  deriving Repr, DecidableEq

/-- Observable behaviour of a `mouseClickEvent` / `mouseDragEvent`
handler: `accepts` is the value of the event's accepted flag after the
handler returns or is unwound, `raises` whether it raises. -/
structure HandlerB where
  accepts : Bool
  raises : Bool
  deriving Repr, DecidableEq

/-- Observable behaviour of a `hoverEvent` handler.  Modelled from the
spec for the claim part: `mouseEvents.py` is not among the sources; per
the spec, `event.acceptClicks(b)` / `event.acceptDrags(b)` records the
item for button `b` on the hover event, the first claimant winning,
and only while the event is acceptable. -/
structure HoverB where
  claimClicks : List Button
  claimDrags : List Button
  raises : Bool
  deriving Repr, DecidableEq

/-- An axis-aligned rectangle in scene coordinates. -/
structure SRect where
  x0 : ℤ
  y0 : ℤ
  x1 : ℤ
  y1 : ℤ
  deriving Repr, DecidableEq

def SRect.containsPt (r : SRect) (p : Pt) : Bool :=
  decide (r.x0 ≤ p.x) && decide (p.x ≤ r.x1) &&
  decide (r.y0 ≤ p.y) && decide (p.y ≤ r.y1)

/-- A scene-graph item as observed by the dispatch code.  `inScene`
models `item.scene() is self`; `absZ` is the precomputed value of
`absZValue(item)` (the item's zValue summed over its parent chain,
lines 376-379); `shape` is the hit geometry in scene coordinates
(`none` models `shape()` returning None); `hoverB`/`clickB`/`dragB`
are `some` exactly when the item has the corresponding handler
attribute; `hasMouseDragEventAttr` models `hasattr(item,
'MouseDragEvent')` — note the capital M: that name is the event
*class*, distinct from the `mouseDragEvent` handler. -/
structure Item where
  id : Nat
  visible : Bool
  enabled : Bool
  inScene : Bool
  focusable : Bool
  absZ : ℤ
  shape : Option SRect
  hoverB : Option HoverB
  clickB : Option HandlerB
  dragB : Option HandlerB
  hasMouseDragEventAttr : Bool
  deriving Repr, DecidableEq

/-- Whether the item's hit shape contains the scene point (lines
368-371: a None shape never hits). -/
def Item.hitAt (it : Item) (p : Pt) : Bool :=
  match it.shape with
  | none => false
  | some r => r.containsPt p

/-- Modelled from the spec: the `MouseClickEvent` carrier of
`GraphicsScene/mouseEvents.py` (not among the sources).  It records the
press — button, scene position of the press (also its
`buttonDownScenePos`), press time — plus the accepted flag and
`currentItem` written during dispatch. -/
structure ClickEv where
  button : Button
  scenePos : Pt
  time : ℤ
  accepted : Bool
  currentItem : Option Nat
  deriving Repr, DecidableEq

/-- Modelled from the spec: the `MouseDragEvent` carrier
(`MouseDragEvent(moveEvent, pressEvent, lastEvent, start, finish)`):
its button and `buttonDownScenePos` come from the originating press
event, its scene position from the move event. -/
structure DragEv where
  button : Button
  buttonDownScenePos : Pt
  scenePos : Pt
  start : Bool
  finish : Bool
  accepted : Bool
  currentItem : Option Nat
  deriving Repr, DecidableEq

/-- The custom `HoverEvent`.  The `clickItems()` / `dragItems()`
dictionaries map a button to the item whose hover-time
`acceptClicks` / `acceptDrags` claim succeeded (modelled from the spec,
see `HoverB`); they store item references, so a recorded item need not
still be in the scene. -/
structure HoverEv where
  scenePos : Pt
  acceptable : Bool
  clickItems : List (Button × Item)
  dragItems : List (Button × Item)
  deriving Repr, DecidableEq

/-- `dict.get(button, None)` on the per-button claim records. -/
def lookupButton (l : List (Button × Item)) (b : Button) : Option Item :=
  match l.find? (fun p => decide (p.1 = b)) with
  | some p => some p.2
  | none => none

/-- The per-scene dispatch state of `GraphicsScene.__init__` together
with the scene's current item list (the source of Qt's spatial
queries) and the two thresholds `_moveDistance` and `minDragTime`. -/
structure SceneState where
  items : List Item
  clickEvents : List ClickEv
  dragButtons : List Button
  dragItem : Option Item
  lastDrag : Option DragEv
  hoverItems : List Item
  lastHoverEvent : Option HoverEv
  moveDistance : ℤ
  minDragTime : ℤ
  deriving Repr, DecidableEq

/-- Stable insertion used to model `items2.sort(key=absZValue,
reverse=True)` (line 381): place `x` before the first element whose
absolute Z does not exceed `x`'s, so equal keys keep their original
relative order, as Python's stable sort does. -/
def insertDescAbsZ (x : Item) : List Item → List Item
  | [] => [x]
  | y :: ys => if y.absZ ≤ x.absZ then x :: y :: ys else y :: insertDescAbsZ x ys

def sortDescAbsZ : List Item → List Item
  | [] => []
  | x :: xs => insertDescAbsZ x (sortDescAbsZ xs)

/-- `GraphicsScene.itemsNearEvent` (lines 340-383) at a given scene
point.  The Qt spatial query `self.items(point, selMode, sortOrder,
tr)` is over-approximated by the scene's full item list: the code
re-filters its result by exact shape containment and scene membership
and re-sorts it, so the final list is unchanged (the Qt query returns a
superset of the shape-containing items).  The click-radius rectangle
computed on lines 351-352 is never used by the source. -/
def itemsNearEvent (sc : SceneState) (point : Pt) (hoverable : Bool) : List Item :=
  sortDescAbsZ (sc.items.filter (fun it =>
    (!hoverable || it.hoverB.isSome) && it.inScene && it.hitAt point))

/-- Kinds of hover notification an item can receive in one pass. -/
inductive HKind where
  | enter | move | exit
  deriving Repr, DecidableEq

/-- `event.acceptClicks` / `event.acceptDrags` claims made by a hover
handler when it runs (modelled from the spec): each claimed button is
recorded with the claiming item unless the event is unacceptable or
another item already holds the button. -/
def hoverMergeClaims (it : Item) (hb : HoverB) (ev : HoverEv) : HoverEv :=
  if ev.acceptable then
    { ev with
      clickItems := hb.claimClicks.foldl (fun cl b =>
        if (lookupButton cl b).isSome then cl else cl ++ [(b, it)]) ev.clickItems,
      dragItems := hb.claimDrags.foldl (fun dl b =>
        if (lookupButton dl b).isSome then dl else dl ++ [(b, it)]) ev.dragItems }
  else ev

/-- Remove the first item with this id (`prevItems.remove(item)` /
`del self.hoverItems[item]`). -/
def removeFirstItem (i : Nat) : List Item → List Item
  | [] => []
  | x :: xs => if x.id = i then xs else x :: removeFirstItem i xs

/-- The first loop of `sendHoverEvents` (lines 228-238): walk the
hovered candidates; a candidate without a `hoverEvent` attribute is
skipped; a new candidate is added to the hover set and gets
`enter=True`, a known one is removed from `prevItems`; then its
handler runs (and may claim buttons, or raise, which propagates). -/
def hoverLoop1 (acc : List Item × List Item × HoverEv × List (Nat × HKind)) :
    List Item → Except String (List Item × List Item × HoverEv × List (Nat × HKind))
  | [] => .ok acc
  | it :: rest =>
    match it.hoverB with
    | none => hoverLoop1 acc rest
    | some hb =>
      let (hov, prev, ev, tr) := acc
      let (hov', prev', kind) :=
        if hov.any (fun j => decide (j.id = it.id)) then
          (hov, removeFirstItem it.id prev, HKind.move)
        else
          (hov ++ [it], prev, HKind.enter)
      if hb.raises then .error "handler exception in hoverEvent"
      else
        hoverLoop1 (hov', prev', hoverMergeClaims it hb ev, tr ++ [(it.id, kind)]) rest

/-- The exit loop of `sendHoverEvents` (lines 240-247): every item left
in `prevItems` is removed from the hover set; those still in the scene
get an exit notification first (a missing handler would be an
AttributeError; a raising handler propagates and, like the
AttributeError, aborts the pass). -/
def hoverLoop2 (acc : List Item × HoverEv × List (Nat × HKind)) :
    List Item → Except String (List Item × HoverEv × List (Nat × HKind))
  | [] => .ok acc
  | it :: rest =>
    let (hov, ev, tr) := acc
    if it.inScene then
      match it.hoverB with
      | none => .error "AttributeError: hoverEvent"
      | some hb =>
        if hb.raises then .error "handler exception in hoverEvent"
        else
          hoverLoop2 (removeFirstItem it.id hov, hoverMergeClaims it hb ev,
                      tr ++ [(it.id, HKind.exit)]) rest
    else
      hoverLoop2 (removeFirstItem it.id hov, ev, tr) rest

/-- The body of `sendHoverEvents` up to the `lastHoverEvent` update:
returns the new hover set, the populated hover event and the
notification trace. -/
def sendHoverCore (sc : SceneState) (ev : SEvent) (exitOnly : Bool) :
    Except String (List Item × HoverEv × List (Nat × HKind)) :=
  let (items, ev0) :=
    if exitOnly then
      (([] : List Item), HoverEv.mk ev.scenePos false [] [])
    else
      (itemsNearEvent sc ev.scenePos true,
       HoverEv.mk ev.scenePos ev.buttons.isEmpty [] [])
  match hoverLoop1 (sc.hoverItems, sc.hoverItems, ev0, []) items with
  | .error e => .error e
  | .ok (hov, prev, ev1, tr) =>
    match hoverLoop2 (hov, ev1, tr) prev with
    | .error e => .error e
    | .ok (hov2, ev2, tr2) => .ok (hov2, ev2, tr2)

/-- The tail of `sendHoverEvents` (lines 249-255): store the new hover
set; the event becomes `lastHoverEvent` only for a press, or for a move
with no buttons held. -/
def applyLastHoverUpdate (sc : SceneState) (ev : SEvent) (hov : List Item)
    (hev : HoverEv) : SceneState :=
  let sc' := { sc with hoverItems := hov }
  if ev.typ = .press ∨ (ev.typ = .move ∧ ev.buttons.isEmpty) then
    { sc' with lastHoverEvent := some hev }
  else sc'

/-- `GraphicsScene.sendHoverEvents` (lines 213-255). -/
def sendHoverEvents (sc : SceneState) (ev : SEvent) (exitOnly : Bool) :
    Except String (SceneState × List (Nat × HKind)) :=
  match sendHoverCore sc ev exitOnly with
  | .error e => .error e
  | .ok (hov, hev, tr) => .ok (applyLastHoverUpdate sc ev hov hev, tr)

/-- The candidate walk of `sendDragEvent`'s initial dispatch (lines
276-289): invisible, disabled or handler-less candidates are skipped;
each handler runs inside `try/except`, so a raising handler is
swallowed and the walk continues; the first candidate that leaves the
event accepted becomes the drag item and the walk stops.  Returns
(accepted flag, chosen drag item, ids whose handler ran, final
event). -/
def dragWalk (ev : DragEv) : List Item → Bool × Option Item × List Nat × DragEv
  | [] => (ev.accepted, none, [], ev)
  | it :: rest =>
    if !it.visible || !it.enabled then dragWalk ev rest
    else
      match it.dragB with
      | none => dragWalk ev rest
      | some hb =>
        let ev' := { ev with currentItem := some it.id, accepted := hb.accepts }
        if ev'.accepted then (true, some it, [it.id], ev')
        else
          let w := dragWalk ev' rest
          (w.1, w.2.1, it.id :: w.2.2.1, w.2.2.2)

/-- The initial dispatch of `sendDragEvent` (lines 261-289), run when
`init` is set and no drag item exists yet: the hover-declared acceptor
— used only if still in the scene — or, failing that, the candidate
walk.  Both handler call sites sit in `try/except` (a missing
`mouseDragEvent` attribute on the declared acceptor is an
AttributeError equally swallowed by the bare `except`), so this branch
is total: it cannot raise.  Returns (accepted, new state, ids whose
handler ran). -/
def dragInitDispatch (sc : SceneState) (ev0 : DragEv) :
    Bool × SceneState × List Nat :=
  let acceptedItem :=
    match sc.lastHoverEvent with
    | some he => lookupButton he.dragItems ev0.button
    | none => none
  match acceptedItem with
  | some it =>
    if it.inScene then
      match it.dragB with
      | none =>
        let ev1 := { ev0 with currentItem := some it.id }
        (false, { sc with dragItem := some it, lastDrag := some ev1 }, [])
      | some hb =>
        let ev1 := { ev0 with currentItem := some it.id, accepted := hb.accepts }
        (ev1.accepted, { sc with dragItem := some it, lastDrag := some ev1 }, [it.id])
    else
      let w := dragWalk ev0 (itemsNearEvent sc ev0.buttonDownScenePos false)
      (w.1, { sc with dragItem := w.2.1, lastDrag := some w.2.2.2 }, w.2.2.1)
  | none =>
    let w := dragWalk ev0 (itemsNearEvent sc ev0.buttonDownScenePos false)
    (w.1, { sc with dragItem := w.2.1, lastDrag := some w.2.2.2 }, w.2.2.1)

/-- `GraphicsScene.sendDragEvent` (lines 257-296).  The event is built
from `self.clickEvents[0]` — an empty `clickEvents` is an IndexError.
The initial dispatch (`init` and no drag item yet) is the total
`dragInitDispatch`.  In the continuation branch
(`elif self.dragItem is not None`) the handler is called unprotected:
a missing `mouseDragEvent` attribute or a raising handler propagates.
Returns (accepted, new state, ids whose handler ran). -/
def sendDragEvent (sc : SceneState) (ev : SEvent) (init final : Bool) :
    Except String (Bool × SceneState × List Nat) :=
  match sc.clickEvents with
  | [] => .error "IndexError: self.clickEvents[0]"
  | cev0 :: _ =>
    let ev0 : DragEv :=
      { button := cev0.button, buttonDownScenePos := cev0.scenePos,
        scenePos := ev.scenePos, start := init, finish := final,
        accepted := false, currentItem := none }
    if init && sc.dragItem.isNone then
      .ok (dragInitDispatch sc ev0)
    else
      match sc.dragItem with
      | some it =>
        -- lines 290-292: unprotected self.dragItem.mouseDragEvent(event)
        match it.dragB with
        | none => .error "AttributeError: mouseDragEvent"
        | some hb =>
          if hb.raises then .error "handler exception in mouseDragEvent"
          else
            let ev1 := { ev0 with currentItem := some it.id, accepted := hb.accepts }
            .ok (ev1.accepted, { sc with lastDrag := some ev1 }, [it.id])
      | none => .ok (false, { sc with lastDrag := some ev0 }, [])

/-- The candidate walk of `sendClickEvent` (lines 314-324): invisible,
disabled or handler-less candidates are skipped; the handler call is
*not* protected, so a raising handler propagates; the walk stops at the
first candidate that leaves the event accepted.  Returns (accepted, ids
whose handler ran, final event). -/
def clickWalk (ev : ClickEv) : List Item → Except String (Bool × List Nat × ClickEv)
  | [] => .ok (ev.accepted, [], ev)
  | it :: rest =>
    if !it.visible || !it.enabled then clickWalk ev rest
    else
      match it.clickB with
      | none => clickWalk ev rest
      | some hb =>
        if hb.raises then .error "handler exception in mouseClickEvent"
        else
          let ev' := { ev with currentItem := some it.id, accepted := hb.accepts }
          if ev'.accepted then .ok (true, [it.id], ev')
          else
            match clickWalk ev' rest with
            | .error e => .error e
            | .ok (a, l, e) => .ok (a, it.id :: l, e)

/-- `self.lastHoverEvent.clickItems().get(ev.button(), None)` guarded by
`lastHoverEvent is not None` (lines 306-309). -/
def lastHoverClickAcceptor (sc : SceneState) (b : Button) : Option Item :=
  match sc.lastHoverEvent with
  | some he => lookupButton he.clickItems b
  | none => none

/-- The non-drag branch of `sendClickEvent` (lines 305-324): the
hover-declared acceptor, if any, receives the click directly — with no
check that it is still in the scene and no `hasattr` guard on its
`mouseClickEvent` — otherwise the candidate walk runs at the event's
`buttonDownScenePos` (the press position). -/
def clickSearch (sc : SceneState) (ev : ClickEv) :
    Except String (Bool × List Nat × ClickEv) :=
  match lastHoverClickAcceptor sc ev.button with
  | some it =>
    match it.clickB with
    | none => .error "AttributeError: mouseClickEvent"
    | some hb =>
      if hb.raises then .error "handler exception in mouseClickEvent"
      else .ok (hb.accepts, [it.id],
                { ev with currentItem := some it.id, accepted := hb.accepts })
  | none => clickWalk ev (itemsNearEvent sc ev.scenePos false)

/-- `GraphicsScene.sendClickEvent` (lines 298-326).  The mid-drag branch
triggers only when the drag item has a `MouseDragEvent` *attribute*
(capital M — the event-class name, not the `mouseDragEvent` handler);
its handler call is unprotected.  The scene state itself is not
modified; returns (accepted, ids whose handler ran, final event — also
the payload of the `mouse_clicked_sgn` emission). -/
def sendClickEvent (sc : SceneState) (ev : ClickEv) :
    Except String (Bool × List Nat × ClickEv) :=
  match sc.dragItem with
  | some d =>
    if d.hasMouseDragEventAttr then
      match d.clickB with
      | none => .error "AttributeError: mouseClickEvent"
      | some hb =>
        if hb.raises then .error "handler exception in mouseClickEvent"
        else .ok (hb.accepts, [d.id],
                  { ev with currentItem := some d.id, accepted := hb.accepts })
    else clickSearch sc ev
  | none => clickSearch sc ev

/-- One iteration of `mouseMoveEvent`'s button loop (lines 162-175):
for a held button not yet dragging, find its pending click event and
promote unless the move is at zero distance, or both below the distance
threshold and within the time threshold.  The source compares the
Euclidean distance `dist = Point(ev.scenePos() - cev.scenePos()).length()`
with `0` and with `self._moveDistance`; the embedding compares squared
lengths, which agrees for a nonnegative `moveDistance` (a hypothesis
where it matters).  The accumulator carries (dragButtons, init). -/
def promoteStep (sc : SceneState) (ev : SEvent) (acc : List Button × Bool)
    (btn : Button) : List Button × Bool :=
  if !(ev.buttons.contains btn) then acc
  else if acc.1.contains btn then acc
  else
    match sc.clickEvents.find? (fun e => decide (e.button = btn)) with
    | none => acc
    | some cev =>
      let dx := ev.scenePos.x - cev.scenePos.x
      let dy := ev.scenePos.y - cev.scenePos.y
      let distSq := dx * dx + dy * dy
      if distSq = 0 ∨ (distSq < sc.moveDistance * sc.moveDistance ∧
                       ev.time - cev.time < sc.minDragTime) then acc
      else (acc.1 ++ [btn], acc.2 || acc.1.isEmpty)

/-- `GraphicsScene.mouseMoveEvent` (lines 147-180): hover pass first;
then, with buttons held and no grabber, the promotion loop over
(Left, Middle, Right) and — whenever any button is dragging — a drag
dispatch with `init` set when this pass promoted the first one. -/
def mouseMoveEvent (sc : SceneState) (ev : SEvent) : Except String SceneState :=
  match sendHoverEvents sc ev false with
  | .error e => .error e
  | .ok (sc1, _) =>
    if ev.buttons.isEmpty then .ok sc1
    else if ev.grabber then .ok sc1
    else
      let r :=
        [Button.left, Button.middle, Button.right].foldl (promoteStep sc1 ev)
          (sc1.dragButtons, false)
      let sc2 := { sc1 with dragButtons := r.1 }
      if sc2.dragButtons.length > 0 then
        match sendDragEvent sc2 ev r.2 false with
        | .error e => .error e
        | .ok (_, sc3, _) => .ok sc3
      else .ok sc2

/-- `GraphicsScene.mousePressEvent` (lines 129-145): when no item
grabbed the press, re-send hover events if the cursor moved since the
last recorded hover event, then queue a pending click event (the focus
assignment has no observable in this model). -/
def mousePressEvent (sc : SceneState) (ev : SEvent) : Except String SceneState :=
  if ev.grabber then .ok sc
  else
    let afterHover : Except String SceneState :=
      match sc.lastHoverEvent with
      | some he =>
        if ev.scenePos ≠ he.scenePos then
          match sendHoverEvents sc ev false with
          | .error e => .error e
          | .ok (s, _) => .ok s
        else .ok sc
      | none => .ok sc
    match afterHover with
    | .error e => .error e
    | .ok sc1 =>
      .ok { sc1 with clickEvents := sc1.clickEvents ++
              [{ button := ev.button, scenePos := ev.scenePos, time := ev.time,
                 accepted := false, currentItem := none }] }

/-- `GraphicsScene.mouseReleaseEvent` (lines 186-206): with no grabber,
a dragging button gets a final drag dispatch and leaves `dragButtons`,
otherwise a pending click for this button is dispatched and removed;
when no buttons remain held the four per-gesture fields are reset; the
trailing hover pass lets items prepare for the next gesture.  Returns
the new state and the click events passed to `sendClickEvent` (the
`mouse_clicked_sgn` emissions).  The dispatch half (lines 187-197) is
split out as `releaseDispatch`. -/
def releaseDispatch (sc : SceneState) (ev : SEvent) :
    Except String (SceneState × List ClickEv) :=
  if ev.grabber then .ok (sc, [])
  else if sc.dragButtons.contains ev.button then
    match sendDragEvent sc ev false true with
    | .error e => .error e
    | .ok (_, s, _) =>
      .ok ({ s with dragButtons := s.dragButtons.erase ev.button }, [])
  else
    match sc.clickEvents.find? (fun e => decide (e.button = ev.button)) with
    | some cev =>
      match sendClickEvent sc cev with
      | .error e => .error e
      | .ok (_, _, finalEv) =>
        .ok ({ sc with clickEvents := sc.clickEvents.erase cev }, [finalEv])
    | none => .ok (sc, [])

def mouseReleaseEvent (sc : SceneState) (ev : SEvent) :
    Except String (SceneState × List ClickEv) :=
  match releaseDispatch sc ev with
  | .error e => .error e
  | .ok (sc1, emitted) =>
    let sc2 :=
      if ev.buttons.isEmpty then
        { sc1 with dragItem := none, dragButtons := [], clickEvents := [],
                   lastDrag := none }
      else sc1
    match sendHoverEvents sc2 ev false with
    | .error e => .error e
    | .ok (sc3, _) => .ok (sc3, emitted)

/-! ## Concrete items and scenes shared by the dispatch theorems -/

/-- A visible, enabled, in-scene item over the square [0,10]², with
hover, click and drag handlers that accept (the drag-capable variety:
it defines `mouseDragEvent`, hence — as every event-handling item —
has no `MouseDragEvent` attribute). -/
def itemY : Item :=
  { id := 2, visible := true, enabled := true, inScene := true,
    focusable := false, absZ := 1, shape := some ⟨0, 0, 10, 10⟩,
    hoverB := some ⟨[], [], false⟩, clickB := some ⟨true, false⟩,
    dragB := some ⟨true, false⟩, hasMouseDragEventAttr := false }

/-- A visible, enabled, in-scene item over [0,10]² whose click and drag
handlers raise without accepting. -/
def itemRaising : Item :=
  { id := 3, visible := true, enabled := true, inScene := true,
    focusable := false, absZ := 0, shape := some ⟨0, 0, 10, 10⟩,
    hoverB := none, clickB := some ⟨false, true⟩, dragB := some ⟨false, true⟩,
    hasMouseDragEventAttr := false }

/-- A scene holding only `itemRaising`, no pending gesture state. -/
def scRaise : SceneState :=
  { items := [itemRaising], clickEvents := [], dragButtons := [],
    dragItem := none, lastDrag := none, hoverItems := [],
    lastHoverEvent := none, moveDistance := 5, minDragTime := 10 }

/-- A pending left-button click pressed at (5, 5) at time 0. -/
def evClick : ClickEv := ⟨.left, ⟨5, 5⟩, 0, false, none⟩

/-- `scRaise` right after that press was recorded. -/
def scDragInit : SceneState := { scRaise with clickEvents := [evClick] }

/-- A left-button move to (6, 5) at time 1 with the left button held. -/
def evMoveAt : SEvent := ⟨.move, .left, [.left], ⟨6, 5⟩, 1, false⟩

/-- C2 (counterexample).  The claim says an exception raised inside an
item's handler never propagates out of `sendClickEvent`.  But the click
dispatch has no `try/except` at all (lines 298-326): with a single
visible, enabled candidate whose `mouseClickEvent` raises, the
exception propagates out of `sendClickEvent`. -/
theorem claim2_counterexample_click_handler_exception_propagates :
    sendClickEvent scRaise evClick =
      .error "handler exception in mouseClickEvent" := by
  decide

/-- C2 (amended).  Handler exceptions are caught at the dispatch call
site only in `sendDragEvent`'s initial dispatch (`init=True` with no
drag item yet, lines 261-289), where every handler call sits in a
`try/except` and the candidate walk continues past a raising handler:
under those conditions `sendDragEvent` never propagates, whatever the
items and their handlers do. -/
theorem claim2_amended_initial_drag_dispatch_never_propagates
    (sc : SceneState) (ev : SEvent) (final : Bool)
    (h1 : sc.dragItem = none) (h2 : sc.clickEvents ≠ []) :
    ∃ r, sendDragEvent sc ev true final = .ok r := by
  rcases hc : sc.clickEvents with _ | ⟨cev, rest⟩
  · exact absurd hc h2
  · refine ⟨dragInitDispatch sc ?_, ?_⟩
    · exact { button := cev.button, buttonDownScenePos := cev.scenePos,
              scenePos := ev.scenePos, start := true, finish := final,
              accepted := false, currentItem := none }
    · unfold sendDragEvent
      rw [hc, h1]
      rfl

/-- Witness for the amended C2: in `scDragInit` the only candidate's
drag handler raises, yet the initial drag dispatch returns normally. -/
theorem claim2_amended_witness :
    ∃ r, sendDragEvent scDragInit evMoveAt true false = .ok r :=
  claim2_amended_initial_drag_dispatch_never_propagates scDragInit evMoveAt false
    rfl (by decide)

/-- C10.  The mid-drag branch of `sendClickEvent` guards on
`hasattr(self.dragItem, 'MouseDragEvent')` — the event-class name —
which event-handling items (they define `mouseDragEvent`, lowercase) do
not have: whenever the drag item lacks that attribute, the pending
click is routed through the normal search path (`clickSearch`: the
hover-declared acceptor if any, otherwise the candidate walk), never
delivered exclusively to the drag target. -/
theorem claim10_mid_drag_click_routes_through_normal_search
    (sc : SceneState) (ev : ClickEv) (d : Item)
    (h1 : sc.dragItem = some d) (h2 : d.hasMouseDragEventAttr = false) :
    sendClickEvent sc ev = clickSearch sc ev := by
  simp [sendClickEvent, h1, h2]

/-- Witness for C10: with `itemY` (which defines `mouseDragEvent`) as
the active drag target, a pending click goes through the normal search
path and lands on the topmost candidate, not on the drag target
unconditionally. -/
theorem claim10_witness :
    sendClickEvent { scRaise with dragItem := some itemY } evClick =
      clickSearch { scRaise with dragItem := some itemY } evClick :=
  claim10_mid_drag_click_routes_through_normal_search _ evClick itemY rfl rfl

/-! ## Context-menu assembly (GraphicsScene.py lines 388-441) -/

/-- A Python object handed back by a `getContextMenus` implementation:
a QMenu, a QAction, or anything else (the error case of line 439). -/
inductive MenuObj where
  | menu (id : Nat)
  | action (id : Nat)
  | other (id : Nat)
  deriving Repr, DecidableEq

/-- A `getContextMenus` return value: None, a single object, or a list
of objects. -/
inductive ContribVal where
  | pynone
  | single (m : MenuObj)
  | objList (l : List MenuObj)
  deriving Repr, DecidableEq

/-- One ancestor on the `parentItem()` chain: `contrib = none` models
an item without a `getContextMenus` attribute (skipped by the
`continue` on line 423). -/
structure Ancestor where
  contrib : Option ContribVal
  deriving Repr, DecidableEq

/-- An entry of the QMenu being assembled: one of the item's original
entries, a separator, an added submenu, or an added action. -/
inductive MenuEntry where
  | item (id : Nat)
  | separator
  | submenu (id : Nat)
  | actionEntry (id : Nat)
  deriving Repr, DecidableEq

/-- The while-loop of `addParentContextMenus` (lines 417-428): walk the
ancestors from the immediate parent outwards; `subMenus =
item.getContextMenus(event) or []` maps None to `[]`; a list extends
`menusToAdd`, anything else is appended.  When `parentItem()` runs out
the loop runs once more with the scene itself — whose
`getContextMenus` (lines 443-445) returns `self.contextMenu` — and
then stops. -/
def collectParentMenus (ancestors : List Ancestor) (sceneMenu : List MenuObj) :
    List MenuObj :=
  match ancestors with
  | [] => sceneMenu
  | a :: rest =>
    (match a.contrib with
     | none => []
     | some .pynone => []
     | some (.single m) => [m]
     | some (.objList l) => l) ++ collectParentMenus rest sceneMenu

/-- The final loop of `addParentContextMenus` (lines 433-439): a QMenu
is added as a submenu, a QAction as an action, anything else raises. -/
def addMenuObjs (menu : List MenuEntry) : List MenuObj → Except String (List MenuEntry)
  | [] => .ok menu
  | .menu i :: rest => addMenuObjs (menu ++ [.submenu i]) rest
  | .action i :: rest => addMenuObjs (menu ++ [.actionEntry i]) rest
  | .other _ :: _ => .error "Cannot add object to QMenu."

/-- `GraphicsScene.addParentContextMenus` (lines 388-441): collect the
ancestors' contributions, add a separator only when at least one object
was contributed (lines 430-431), then append the contributions in
order. -/
def addParentContextMenus (ownMenu : List MenuEntry) (ancestors : List Ancestor)
    (sceneMenu : List MenuObj) : Except String (List MenuEntry) :=
  let menusToAdd := collectParentMenus ancestors sceneMenu
  let menu1 := if menusToAdd.isEmpty then ownMenu else ownMenu ++ [MenuEntry.separator]
  addMenuObjs menu1 menusToAdd

/-- A list containing an ill-typed contribution makes the final loop
raise. -/
theorem addMenuObjs_error_of_other {d : Nat} :
    ∀ (l : List MenuObj) (menu : List MenuEntry), MenuObj.other d ∈ l →
      ∃ e, addMenuObjs menu l = .error e := by
  intro l
  induction l with
  | nil => intro menu h; exact absurd h (List.not_mem_nil _)
  | cons m rest ih =>
    intro menu h
    match m with
    | .menu i =>
      rcases List.mem_cons.mp h with h' | h'
      · exact absurd h' (by simp)
      · exact ih _ h'
    | .action i =>
      rcases List.mem_cons.mp h with h' | h'
      · exact absurd h' (by simp)
      · exact ih _ h'
    | .other j => exact ⟨_, rfl⟩

/-- C8.  With two menu-contributing ancestors (immediate parent
contributing menu `m1`, grandparent menu `m2`) and the scene's default
empty `contextMenu`, the assembled menu is the item's own entries, one
separator, then `m1`, then `m2`; with no contribution at all (one
handler-less ancestor, one returning None) the menu is unchanged — no
separator; and any ill-typed contribution anywhere raises. -/
theorem claim8_context_menu_assembly :
    (∀ (own : List MenuEntry) (m1 m2 : Nat),
       addParentContextMenus own
         [⟨some (.single (.menu m1))⟩, ⟨some (.single (.menu m2))⟩] [] =
         .ok (own ++ [.separator, .submenu m1, .submenu m2])) ∧
    (∀ own : List MenuEntry,
       addParentContextMenus own [⟨none⟩, ⟨some .pynone⟩] [] = .ok own) ∧
    (∀ (own : List MenuEntry) (ancestors : List Ancestor)
       (sceneMenu : List MenuObj) (d : Nat),
       MenuObj.other d ∈ collectParentMenus ancestors sceneMenu →
       ∃ e, addParentContextMenus own ancestors sceneMenu = .error e) := by
  refine ⟨?_, ?_, ?_⟩
  · intro own m1 m2
    simp [addParentContextMenus, collectParentMenus, addMenuObjs, List.append_assoc]
  · intro own
    simp [addParentContextMenus, collectParentMenus, addMenuObjs]
  · intro own ancestors sceneMenu d h
    unfold addParentContextMenus
    exact addMenuObjs_error_of_other _ _ h

/-- Witness for C8: a concrete item with two menu-contributing
ancestors. -/
theorem claim8_witness :
    addParentContextMenus [.item 0]
      [⟨some (.single (.menu 5))⟩, ⟨some (.single (.menu 7))⟩] [] =
      .ok [.item 0, .separator, .submenu 5, .submenu 7] :=
  claim8_context_menu_assembly.1 [.item 0] 5 7

/-- The `lastHoverEvent` bookkeeping touches only `hoverItems` and
`lastHoverEvent`; the four per-gesture fields pass through. -/
theorem applyLastHoverUpdate_fields (sc : SceneState) (ev : SEvent)
    (hov : List Item) (hev : HoverEv) :
    (applyLastHoverUpdate sc ev hov hev).hoverItems = hov ∧
    (applyLastHoverUpdate sc ev hov hev).dragItem = sc.dragItem ∧
    (applyLastHoverUpdate sc ev hov hev).dragButtons = sc.dragButtons ∧
    (applyLastHoverUpdate sc ev hov hev).clickEvents = sc.clickEvents ∧
    (applyLastHoverUpdate sc ev hov hev).lastDrag = sc.lastDrag := by
  unfold applyLastHoverUpdate
  split <;> exact ⟨rfl, rfl, rfl, rfl, rfl⟩

/-- A hover pass never changes the per-gesture dispatch fields. -/
theorem sendHoverEvents_preserves_gesture (sc : SceneState) (ev : SEvent)
    (eo : Bool) (st : SceneState) (tr : List (Nat × HKind))
    (h : sendHoverEvents sc ev eo = .ok (st, tr)) :
    st.dragItem = sc.dragItem ∧ st.dragButtons = sc.dragButtons ∧
    st.clickEvents = sc.clickEvents ∧ st.lastDrag = sc.lastDrag := by
  unfold sendHoverEvents at h
  cases hc : sendHoverCore sc ev eo with
  | error e => rw [hc] at h; exact absurd h (by simp)
  | ok x =>
    obtain ⟨hov, hev, tr2⟩ := x
    rw [hc] at h
    simp only [Except.ok.injEq, Prod.mk.injEq] at h
    obtain ⟨h1, _⟩ := h
    rw [← h1]
    exact (applyLastHoverUpdate_fields sc ev hov hev).2

/-- C9.  Any mouse release that leaves no buttons pressed and completes
normally leaves the per-gesture state Idle: no drag item, no dragging
buttons, no pending click events, no last-drag record (lines 199-203;
the trailing hover pass does not touch these fields). -/
theorem claim9_release_leaving_no_buttons_resets_state
    (sc : SceneState) (ev : SEvent) (hb : ev.buttons = [])
    (st : SceneState) (em : List ClickEv)
    (h : mouseReleaseEvent sc ev = .ok (st, em)) :
    st.dragItem = none ∧ st.dragButtons = [] ∧
    st.clickEvents = [] ∧ st.lastDrag = none := by
  unfold mouseReleaseEvent at h
  cases hd : releaseDispatch sc ev with
  | error e => rw [hd] at h; exact absurd h (by simp)
  | ok x =>
    obtain ⟨sc1, em1⟩ := x
    rw [hd] at h
    simp only [hb, List.isEmpty_nil, if_true] at h
    cases hh : sendHoverEvents
        { sc1 with dragItem := none, dragButtons := [], clickEvents := [],
                   lastDrag := none } ev false with
    | error e => rw [hh] at h; exact absurd h (by simp)
    | ok y =>
      obtain ⟨sc3, tr3⟩ := y
      rw [hh] at h
      simp only [Except.ok.injEq, Prod.mk.injEq] at h
      obtain ⟨h1, _⟩ := h
      obtain ⟨p1, p2, p3, p4⟩ := sendHoverEvents_preserves_gesture _ _ _ _ _ hh
      rw [← h1]
      exact ⟨p1, p2, p3, p4⟩

/-- A scene with the accepting item `itemY` and a pending left click. -/
def scRelease : SceneState := { scRaise with items := [itemY], clickEvents := [evClick] }

/-- Witness for C9: releasing the left button (no buttons remain) over
`itemY` dispatches the pending click and resets every per-gesture
field. -/
theorem claim9_witness :
    ∃ st em,
      mouseReleaseEvent scRelease (SEvent.mk .release .left [] ⟨5, 5⟩ 2 false) =
        .ok (st, em) ∧
      st.dragItem = none ∧ st.dragButtons = [] ∧
      st.clickEvents = [] ∧ st.lastDrag = none := by
  have hr : mouseReleaseEvent scRelease (SEvent.mk .release .left [] ⟨5, 5⟩ 2 false) =
      .ok ({ scRelease with clickEvents := [], hoverItems := [itemY] },
           [{ button := .left, scenePos := ⟨5, 5⟩, time := 0, accepted := true,
              currentItem := some 2 }]) := by decide
  exact ⟨_, _, hr, claim9_release_leaving_no_buttons_resets_state _ _ rfl _ _ hr⟩
/-- C5.  A hover pass in which the pointer leaves item `A` (previously
the sole hovered item) and lands on item `B` (disjoint shape, both with
non-raising hover handlers, both in the scene) sends exactly one enter
notification to `B` and exactly one exit notification to `A` — no item
receives both — and afterwards the hover membership set holds `B` and
no longer holds `A`.  (The code delivers the enter before the exit.) -/
theorem claim5_hover_membership_exchange
    (A B : Item) (sc : SceneState) (ev : SEvent) (p : Pt)
    (hitems : sc.items = [A, B]) (hhov : sc.hoverItems = [A])
    (hne : A.id ≠ B.id)
    (hAin : A.inScene = true) (hBin : B.inScene = true)
    (hbA hbB : HoverB)
    (hA : A.hoverB = some hbA) (hArz : hbA.raises = false)
    (hB : B.hoverB = some hbB) (hBrz : hbB.raises = false)
    (hAmiss : A.hitAt p = false) (hBhit : B.hitAt p = true)
    (hevp : ev.scenePos = p) :
    ∃ st tr, sendHoverEvents sc ev false = .ok (st, tr) ∧
      tr = [(B.id, HKind.enter), (A.id, HKind.exit)] ∧
      st.hoverItems = [B] := by
  have hcore : sendHoverCore sc ev false =
      .ok ([B],
           hoverMergeClaims A hbA (hoverMergeClaims B hbB
             (HoverEv.mk p ev.buttons.isEmpty [] [])),
           [(B.id, HKind.enter), (A.id, HKind.exit)]) := by
    simp [sendHoverCore, itemsNearEvent, hitems, hhov, hevp, hA, hB, hAin, hBin,
          hAmiss, hBhit, hArz, hBrz, hne, hoverLoop1, hoverLoop2, sortDescAbsZ,
          insertDescAbsZ, removeFirstItem, List.filter]
  refine ⟨applyLastHoverUpdate sc ev [B]
      (hoverMergeClaims A hbA (hoverMergeClaims B hbB
        (HoverEv.mk p ev.buttons.isEmpty [] []))), _, ?_, rfl, ?_⟩
  · unfold sendHoverEvents
    rw [hcore]
  · exact (applyLastHoverUpdate_fields sc ev [B] _).1

/-- Concrete items for the C5 witness: `hoverA` over [0,2]²,
`hoverB` over [5,8]², disjoint. -/
def hoverA : Item :=
  { id := 10, visible := true, enabled := true, inScene := true,
    focusable := false, absZ := 0, shape := some ⟨0, 0, 2, 2⟩,
    hoverB := some ⟨[], [], false⟩, clickB := none, dragB := none,
    hasMouseDragEventAttr := false }

def hoverBitem : Item :=
  { id := 11, visible := true, enabled := true, inScene := true,
    focusable := false, absZ := 0, shape := some ⟨5, 5, 8, 8⟩,
    hoverB := some ⟨[], [], false⟩, clickB := none, dragB := none,
    hasMouseDragEventAttr := false }

def scHover : SceneState :=
  { items := [hoverA, hoverBitem], clickEvents := [], dragButtons := [],
    dragItem := none, lastDrag := none, hoverItems := [hoverA],
    lastHoverEvent := none, moveDistance := 5, minDragTime := 10 }

/-- Witness for C5: the pointer moves from over `hoverA` to (6, 6),
inside `hoverBitem` only. -/
theorem claim5_witness :
    ∃ st tr,
      sendHoverEvents scHover (SEvent.mk .move .left [] ⟨6, 6⟩ 0 false) false =
        .ok (st, tr) ∧
      tr = [(11, HKind.enter), (10, HKind.exit)] ∧
      st.hoverItems = [hoverBitem] :=
  claim5_hover_membership_exchange hoverA hoverBitem scHover _ ⟨6, 6⟩
    rfl rfl (by decide) rfl rfl ⟨[], [], false⟩ ⟨[], [], false⟩
    rfl rfl rfl rfl (by decide) (by decide) rfl

/-! ## C3: the drag-promotion boundary -/

/-- Minimal drag-promotion scene: thresholds `m` (`_moveDistance`) and
`T` (`minDragTime`), one pending left click pressed at the origin at
time 0, no items. -/
def dragSc (m T : ℤ) : SceneState :=
  { items := [], clickEvents := [ClickEv.mk .left ⟨0, 0⟩ 0 false none],
    dragButtons := [], dragItem := none, lastDrag := none,
    hoverItems := [], lastHoverEvent := none, moveDistance := m, minDragTime := T }

/-- A move to `(d, 0)` at time `t` with the left button held. -/
def dragMove (d t : ℤ) : SEvent := ⟨.move, .left, [.left], ⟨d, 0⟩, t, false⟩

/-- The left-button release (no buttons remain) at time `t`. -/
def dragRelease (t : ℤ) : SEvent := ⟨.release, .left, [], ⟨0, 0⟩, t, false⟩

/-- For nonnegative integers, comparing squared lengths agrees with
comparing lengths (the embedding's squared form of `dist <
moveDistance`). -/
theorem mul_self_lt_mul_self_iff_of_nonneg {a b : ℤ} (ha : 0 ≤ a) (hb : 0 ≤ b) :
    a * a < b * b ↔ a < b := by
  constructor <;> intro h <;> nlinarith

/-- The scene state after a promoting move: the left button dragging
and the start-flagged drag event recorded (no item accepted it — the
scene is empty). -/
def promotedSc (m T d : ℤ) : SceneState :=
  { dragSc m T with
    dragButtons := [Button.left],
    lastDrag := some ⟨.left, ⟨0, 0⟩, ⟨d, 0⟩, true, false, false, none⟩ }

/-- C3.  Drag promotion boundary: from a pending left click pressed at
the origin at time 0, a move to Euclidean distance `d` at elapsed time
`t` promotes the button to dragging iff `d ≠ 0` and (`d ≥ moveDistance`
or `t ≥ minDragTime`); on promotion a drag event with `start = True` is
dispatched on that move (it is the first dragging button); otherwise the
gesture stays a click candidate: no drag state is created and the
subsequent release dispatches the pending click. -/
theorem claim3_drag_promotion_boundary (m T d t : ℤ) (hd : 0 ≤ d) (hm : 0 ≤ m) :
    ∃ sc1, mouseMoveEvent (dragSc m T) (dragMove d t) = .ok sc1 ∧
      (sc1.dragButtons = [Button.left] ↔ (d ≠ 0 ∧ (m ≤ d ∨ T ≤ t))) ∧
      ((d ≠ 0 ∧ (m ≤ d ∨ T ≤ t)) →
        ∃ de, sc1.lastDrag = some de ∧ de.start = true) ∧
      (¬(d ≠ 0 ∧ (m ≤ d ∨ T ≤ t)) →
        sc1.dragButtons = [] ∧ sc1.lastDrag = none ∧
        sc1.clickEvents = [ClickEv.mk .left ⟨0, 0⟩ 0 false none] ∧
        ∀ t2, mouseReleaseEvent sc1 (dragRelease t2) =
          .ok ({ dragSc m T with clickEvents := [] },
               [ClickEv.mk .left ⟨0, 0⟩ 0 false none])) := by
  have hsq := mul_self_lt_mul_self_iff_of_nonneg hd hm
  have hhover : sendHoverEvents (dragSc m T) (dragMove d t) false =
      .ok (dragSc m T, []) := by
    simp [sendHoverEvents, sendHoverCore, hoverLoop1, hoverLoop2,
          applyLastHoverUpdate, itemsNearEvent, sortDescAbsZ, dragSc, dragMove,
          List.filter]
  by_cases hp : d ≠ 0 ∧ (m ≤ d ∨ T ≤ t)
  · -- promotion happens
    have hcond : ¬(d = 0 ∨ (d * d < m * m ∧ t < T)) := by
      rw [hsq, not_or, not_and_or, not_lt, not_lt]
      exact hp
    have hmain : mouseMoveEvent (dragSc m T) (dragMove d t) =
        .ok (promotedSc m T d) := by
      unfold mouseMoveEvent
      rw [hhover]
      simp [dragMove, dragSc, promotedSc, promoteStep, sendDragEvent,
            dragInitDispatch, dragWalk, itemsNearEvent, sortDescAbsZ,
            List.filter, hcond, sub_zero, sub_self, mul_zero, add_zero]
    refine ⟨promotedSc m T d, hmain, ?_, ?_, ?_⟩
    · simp [promotedSc, dragSc, hp]
    · intro _
      exact ⟨_, rfl, rfl⟩
    · intro hnp
      exact absurd hp hnp
  · -- no promotion: still a click candidate
    have hcond : d = 0 ∨ (d * d < m * m ∧ t < T) := by
      by_contra hc
      rw [hsq, not_or, not_and_or, not_lt, not_lt] at hc
      exact hp hc
    have hmain : mouseMoveEvent (dragSc m T) (dragMove d t) = .ok (dragSc m T) := by
      unfold mouseMoveEvent
      rw [hhover]
      simp [dragMove, dragSc, promoteStep, hcond,
            sub_zero, sub_self, mul_zero, add_zero]
    refine ⟨dragSc m T, hmain, ?_, ?_, ?_⟩
    · simp [dragSc, hp]
    · intro h
      exact absurd h hp
    · intro _
      refine ⟨rfl, rfl, rfl, ?_⟩
      intro t2
      simp [mouseReleaseEvent, releaseDispatch, sendClickEvent, clickSearch,
            lastHoverClickAcceptor, clickWalk, itemsNearEvent, sortDescAbsZ,
            sendHoverEvents, sendHoverCore, hoverLoop1, hoverLoop2,
            applyLastHoverUpdate, dragSc, dragRelease, List.filter, List.erase]

/-- Witness for C3: with moveDistance 5 and minDragTime 10, a move to
distance 7 at elapsed time 1 promotes the left button. -/
theorem claim3_witness :
    ∃ sc1, mouseMoveEvent (dragSc 5 10) (dragMove 7 1) = .ok sc1 ∧
      sc1.dragButtons = [Button.left] := by
  obtain ⟨sc1, h1, h2, _, _⟩ :=
    claim3_drag_promotion_boundary 5 10 7 1 (by decide) (by decide)
  exact ⟨sc1, h1, h2.mpr (by decide)⟩

/-! ## C4: click routing priority -/

/-- An accepting click-handling item that has left the scene
(`item.scene() is not self`). -/
def goneItem : Item :=
  { id := 1, visible := true, enabled := true, inScene := false,
    focusable := false, absZ := 5, shape := some ⟨0, 0, 10, 10⟩,
    hoverB := some ⟨[.left], [], false⟩, clickB := some ⟨true, false⟩,
    dragB := none, hasMouseDragEventAttr := false }

/-- A scene whose most recent hover event recorded `goneItem` (id 1,
no longer in the scene) as the left-click acceptor, while `itemY`
(id 2) is the only — hence topmost — in-scene candidate at the click
point. -/
def scGone : SceneState :=
  { items := [itemY], clickEvents := [evClick], dragButtons := [],
    dragItem := none, lastDrag := none, hoverItems := [],
    lastHoverEvent := some ⟨⟨5, 5⟩, true, [(.left, goneItem)], []⟩,
    moveDistance := 5, minDragTime := 10 }

/-- C4 (counterexample).  The claim routes the click to the
hover-declared acceptor only "if X is still in the scene", otherwise
walking the candidates.  The code has no such scene-membership check on
the click path (lines 306-312, contrast line 267 for drags): the click
is delivered to the departed `goneItem` (id 1) and the in-scene topmost
candidate `itemY` (id 2) is never visited. -/
theorem claim4_counterexample_departed_acceptor_still_gets_click :
    goneItem.inScene = false ∧ goneItem.id ≠ itemY.id ∧
    sendClickEvent scGone evClick =
      .ok (true, [goneItem.id],
           { evClick with currentItem := some goneItem.id, accepted := true }) := by
  decide

/-- Specification-style restatement of the claim's candidate walk, for
the C4 refinement: among the candidates, those that are visible,
enabled and expose a click handler are delivered to in order, up to and
including the first whose handler accepts. -/
def deliverUntilAccepted : List Item → List Nat
  | [] => []
  | it :: rest =>
    match it.clickB with
    | some hb => if hb.accepts then [it.id] else it.id :: deliverUntilAccepted rest
    | none => deliverUntilAccepted rest

/-- The candidate walk, stated as filter-then-deliver. -/
def clickWalkSpec (cands : List Item) : List Nat :=
  deliverUntilAccepted
    (cands.filter (fun it => it.visible && it.enabled && it.clickB.isSome))

/-- The embedded walk delivers exactly to `clickWalkSpec` of its
candidate list when no visited handler raises. -/
theorem clickWalk_spec : ∀ cands : List Item,
    (∀ it ∈ cands, ∀ hb, it.clickB = some hb → hb.raises = false) →
    ∀ ev, ∃ acc ev2, clickWalk ev cands = .ok (acc, clickWalkSpec cands, ev2) := by
  intro cands
  induction cands with
  | nil => exact fun _ ev => ⟨ev.accepted, ev, rfl⟩
  | cons it rest ih =>
    intro hnr ev
    have hnr' : ∀ i ∈ rest, ∀ hb, i.clickB = some hb → hb.raises = false :=
      fun i hi => hnr i (List.mem_cons_of_mem _ hi)
    by_cases hv : (!it.visible || !it.enabled) = true
    · obtain ⟨acc, ev2, h⟩ := ih hnr' ev
      have hfe : (it.visible && it.enabled && it.clickB.isSome) = false := by
        revert hv; cases it.visible <;> cases it.enabled <;> simp
      refine ⟨acc, ev2, ?_⟩
      rw [show clickWalk ev (it :: rest) = clickWalk ev rest by simp [clickWalk, hv]]
      rw [show clickWalkSpec (it :: rest) = clickWalkSpec rest by
            simp [clickWalkSpec, List.filter, hfe]]
      exact h
    · rcases hB : it.clickB with _ | hb
      · obtain ⟨acc, ev2, h⟩ := ih hnr' ev
        have hfe : (it.visible && it.enabled && it.clickB.isSome) = false := by
          simp [hB]
        refine ⟨acc, ev2, ?_⟩
        rw [show clickWalk ev (it :: rest) = clickWalk ev rest by
              simp [clickWalk, hv, hB]]
        rw [show clickWalkSpec (it :: rest) = clickWalkSpec rest by
              simp [clickWalkSpec, List.filter, hfe]]
        exact h
      · have hr : hb.raises = false := hnr it (List.mem_cons_self _ _) hb hB
        have hvt : it.visible = true := by
          revert hv; cases it.visible <;> simp
        have het : it.enabled = true := by
          revert hv; cases it.visible <;> cases it.enabled <;> simp
        by_cases ha : hb.accepts = true
        · refine ⟨true, { ev with currentItem := some it.id, accepted := hb.accepts }, ?_⟩
          rw [show clickWalkSpec (it :: rest) = [it.id] by
                simp [clickWalkSpec, List.filter, hvt, het, deliverUntilAccepted, hB, ha]]
          simp [clickWalk, hv, hB, hr, ha]
        · rw [Bool.not_eq_true] at ha
          obtain ⟨acc, ev2, h⟩ :=
            ih hnr' { ev with currentItem := some it.id, accepted := hb.accepts }
          rw [ha] at h
          refine ⟨acc, ev2, ?_⟩
          rw [show clickWalkSpec (it :: rest) = it.id :: clickWalkSpec rest by
                simp [clickWalkSpec, List.filter, hvt, het, deliverUntilAccepted, hB, ha]]
          simp [clickWalk, hv, hB, hr, ha, h]

/-- Descending absolute-Z order. -/
def SortedDescAbsZ : List Item → Prop :=
  List.Pairwise (fun a b => b.absZ ≤ a.absZ)

theorem mem_insertDescAbsZ {x y : Item} {l : List Item} :
    y ∈ insertDescAbsZ x l ↔ y = x ∨ y ∈ l := by
  induction l with
  | nil => simp [insertDescAbsZ]
  | cons z zs ih =>
    simp only [insertDescAbsZ]
    split
    · simp [List.mem_cons]
    · simp [List.mem_cons, ih]
      tauto

theorem sorted_insertDescAbsZ {x : Item} {l : List Item}
    (h : SortedDescAbsZ l) : SortedDescAbsZ (insertDescAbsZ x l) := by
  induction l with
  | nil => simp [insertDescAbsZ, SortedDescAbsZ]
  | cons z zs ih =>
    rcases List.pairwise_cons.mp h with ⟨hz, hzs⟩
    simp only [insertDescAbsZ]
    split
    · rename_i hle
      refine List.pairwise_cons.mpr ⟨?_, h⟩
      intro y hy
      rcases List.mem_cons.mp hy with rfl | hy'
      · exact hle
      · exact le_trans (hz y hy') hle
    · rename_i hgt
      refine List.pairwise_cons.mpr ⟨?_, ih hzs⟩
      intro y hy
      rcases mem_insertDescAbsZ.mp hy with rfl | hy'
      · exact le_of_not_le hgt
      · exact hz y hy'

theorem sorted_sortDescAbsZ (l : List Item) : SortedDescAbsZ (sortDescAbsZ l) := by
  induction l with
  | nil => simp [sortDescAbsZ, SortedDescAbsZ]
  | cons x xs ih => exact sorted_insertDescAbsZ ih

theorem mem_sortDescAbsZ {y : Item} {l : List Item} :
    y ∈ sortDescAbsZ l ↔ y ∈ l := by
  induction l with
  | nil => simp [sortDescAbsZ]
  | cons x xs ih =>
    simp only [sortDescAbsZ]
    rw [mem_insertDescAbsZ, ih, List.mem_cons]

/-- C4 (amended).  Click routing outside an active drag: (a) if some
item X declared acceptance of clicks of this button during the most
recent recorded hover event, the click is delivered to X — whether or
not X is still in the scene; (b) otherwise the candidates at the
gesture's start position are walked, skipping invisible, disabled and
handler-less items, delivering to each until one accepts or the list
is exhausted; the candidate list consists exactly of the in-scene
items whose shape contains the start position, in descending
absolute-Z order. -/
theorem claim4_amended_click_routing (sc : SceneState) (ev : ClickEv)
    (hdrag : sc.dragItem = none) :
    (∀ X hb, lastHoverClickAcceptor sc ev.button = some X →
       X.clickB = some hb → hb.raises = false →
       sendClickEvent sc ev =
         .ok (hb.accepts, [X.id],
              { ev with currentItem := some X.id, accepted := hb.accepts })) ∧
    (lastHoverClickAcceptor sc ev.button = none →
     (∀ it ∈ itemsNearEvent sc ev.scenePos false,
        ∀ hb, it.clickB = some hb → hb.raises = false) →
     ∃ acc ev2, sendClickEvent sc ev =
       .ok (acc, clickWalkSpec (itemsNearEvent sc ev.scenePos false), ev2)) ∧
    SortedDescAbsZ (itemsNearEvent sc ev.scenePos false) ∧
    (∀ it, it ∈ itemsNearEvent sc ev.scenePos false ↔
       (it ∈ sc.items ∧ it.inScene = true ∧ it.hitAt ev.scenePos = true)) := by
  refine ⟨?_, ?_, ?_, ?_⟩
  · intro X hb hX hB hr
    simp [sendClickEvent, hdrag, clickSearch, hX, hB, hr]
  · intro hX hnr
    obtain ⟨acc, ev2, h⟩ := clickWalk_spec _ hnr ev
    refine ⟨acc, ev2, ?_⟩
    simp [sendClickEvent, hdrag, clickSearch, hX, h]
  · exact sorted_sortDescAbsZ _
  · intro it
    unfold itemsNearEvent
    rw [mem_sortDescAbsZ, List.mem_filter]
    simp [Item.hitAt]

/-- Witness for the amended C4, part (a): the click in `scGone` goes to
the declared acceptor even though it left the scene. -/
theorem claim4_witness :
    sendClickEvent scGone evClick =
      .ok (true, [goneItem.id],
           { evClick with currentItem := some goneItem.id, accepted := true }) :=
  (claim4_amended_click_routing scGone evClick rfl).1 goneItem ⟨true, false⟩
    rfl rfl rfl

end Foamgraph
